import Mathlib

/-!
Verification of the visibility-gated animation controller pattern of a
portfolio website (source files: `js/pipeline-main.js`, `js/utils.js`).

The browser-side code is shallowly embedded: JS numbers are modelled as
rationals, DOM/browser callbacks (IntersectionObserver records, scheduled
`requestAnimationFrame` callbacks, scroll checks, the `beforeunload`
handler) become explicit events acting on explicit state records, and the
drawing work done inside an animation-loop body is abstracted to a counted
invocation that the environment may let throw.
-/

/- ===== utils.js / inline Utils of pipeline-main.js ===== -/

/-- Model of the JS expression `v || dflt` on a numeric hint that may be
absent (`undefined`) or zero (both falsy), as used at utils.js:82-83 and
pipeline-main.js:48-49. -/
def jsOrNat (v : Option Nat) (dflt : Nat) : Nat :=
  match v with
  | none => dflt
  | some 0 => dflt
  | some n => n

/-- utils.js:81-85 (identical inline copy at pipeline-main.js:47-51):
`isLowEndDevice()` reads `navigator.hardwareConcurrency || 2` and
`navigator.deviceMemory || 4` and classifies the device as low-end when
`cores <= 4 || memory <= 4`. -/
def isLowEndDevice (hardwareConcurrency deviceMemory : Option Nat) : Bool :=
  let cores := jsOrNat hardwareConcurrency 2
  let memory := jsOrNat deviceMemory 4
  decide (cores ≤ 4) || decide (memory ≤ 4)

/-- pipeline-main.js:130: `const particleCount = isLowEnd ? 5 : (isMobile ? 10 : 20)`. -/
def particleCount (isLowEnd isMobile : Bool) : Nat :=
  if isLowEnd then 5 else if isMobile then 10 else 20

/-- utils.js:162-175 `createCleanupRegistry().cleanup`: the registered
cleanup actions are run by `cleanups.forEach(fn => fn())` with no
try/catch, then `cleanups.length = 0`.  Each action is modelled by
whether it throws.  `forEachCleanups acts` returns the number of actions
that were invoked (including a throwing one) and whether an exception
escaped the `forEach` (aborting it). -/
def forEachCleanups : List Bool → Nat × Bool
  | [] => (0, false)
  | actionThrows :: rest =>
    if actionThrows then (1, true)
    else
      let r := forEachCleanups rest
      (r.1 + 1, r.2)

/-- utils.js:170-173: `cleanup()` runs the `forEach` and then clears the
array; if an action throws, the exception propagates out of `cleanup()`
and the clearing line is never reached.  Result: (number of actions
invoked, whether an exception propagated to the caller, the `cleanups`
array after the call). -/
def cleanupRegistryCleanup (cleanups : List Bool) : Nat × Bool × List Bool :=
  let r := forEachCleanups cleanups
  if r.2 then (r.1, true, cleanups) else (r.1, false, [])

/- ===== one-shot effects ===== -/

/-- State of the observer installed by `initSkillRadarChart`
(pipeline-main.js:476-494): whether `observer.disconnect()` has run and
how many times the radar-chart reveal animation has been started. -/
structure RadarState where
  disconnected : Bool
  fires : Nat
deriving DecidableEq, Repr

/-- One delivered IntersectionObserver record for the radar-chart
container (pipeline-main.js:476-491): if the target is intersecting, the
reveal animation is started and the observer disconnects itself; records
are not delivered once the observer is disconnected. -/
def radarObserverStep (s : RadarState) (isIntersecting : Bool) : RadarState :=
  if s.disconnected then s
  else if isIntersecting then { disconnected := true, fires := s.fires + 1 }
  else s

/-- The radar-chart one-shot handle after a sequence of delivered
visibility records, starting from the freshly created observer. -/
def initSkillRadarChartRun (evts : List Bool) : RadarState :=
  evts.foldl radarObserverStep { disconnected := false, fires := 0 }

/-- State of `initMetricCounters` (pipeline-main.js:735-757): the
module-local `animated` flag and the number of times the block that
starts all metric counter animations has run. -/
structure MetricState where
  animated : Bool
  fires : Nat
deriving DecidableEq, Repr

/-- One invocation of `checkMetrics` (pipeline-main.js:739-753):
`if (!metricsSection || animated) return;` then, if the section is
visible, set `animated = true` and start every counter.  `sectionExists`
models whether `.metrics-dashboard` is present in the document;
`isVisible` is the bounding-rect visibility computed by this invocation. -/
def checkMetrics (sectionExists : Bool) (s : MetricState) (isVisible : Bool) : MetricState :=
  if !sectionExists || s.animated then s
  else if isVisible then { animated := true, fires := s.fires + 1 }
  else s

/-- The metric-counter one-shot state after the initial check and any
number of scroll-driven checks (each list entry is the visibility seen by
one invocation of `checkMetrics`). -/
def initMetricCountersRun (sectionExists : Bool) (checks : List Bool) : MetricState :=
  checks.foldl (checkMetrics sectionExists) { animated := false, fires := 0 }

/-- One invocation of `checkImpact` (pipeline-main.js:767-781), the
impact-section clone of `checkMetrics` guarded by `impactAnimated`. -/
def checkImpact (sectionExists : Bool) (s : MetricState) (isVisible : Bool) : MetricState :=
  if !sectionExists || s.animated then s
  else if isVisible then { animated := true, fires := s.fires + 1 }
  else s

/-- The impact-counter one-shot state after a sequence of checks. -/
def initImpactCountersRun (sectionExists : Bool) (checks : List Bool) : MetricState :=
  checks.foldl (checkImpact sectionExists) { animated := false, fires := 0 }

/- ===== animateCounter ===== -/

/-- pipeline-main.js:719-733 `animateCounter(element, target, duration)`:
`increment = target / (duration / 16)`, `current = 0`, and every 16 ms
tick does `current += increment; if (current >= target) show target and
stop else show Math.floor(current)`.  JS numbers are modelled as
rationals; `fuel` bounds the number of ticks and the returned list is the
sequence of values written to `element.textContent`. -/
def counterDisplays : Nat → ℚ → ℚ → ℚ → List ℚ
  | 0, _, _, _ => []
  | fuel + 1, current, increment, target =>
    let c := current + increment
    if target ≤ c then [target]
    else (⌊c⌋ : ℚ) :: counterDisplays fuel c increment target

/-- The full display sequence of `animateCounter` run with the given tick
budget. -/
def animateCounter (target duration : ℚ) (fuel : Nat) : List ℚ :=
  counterDisplays fuel 0 (target / (duration / 16)) target

/- ===== the observer-gated canvas loop (initInteractivePipelineCanvas) ===== -/

/-- Scheduling-relevant state of the canvas effect created by
`initInteractivePipelineCanvas` (pipeline-main.js:103-290) together with
the browser-side frame queue.  `isCanvasVisible` and `animationFrameId`
are the script variables of the same names (lines 124-125);
`pending` is the queue of `requestAnimationFrame` callbacks that have
been scheduled but neither fired nor cancelled (ids issued from
`nextId`); `observerDisconnected` records whether the cleanup closure has
run `canvasObserver.disconnect()`; `framesRun` counts invocations of the
body of `animate` that passed the visibility guard. -/
structure CanvasState where
  isCanvasVisible : Bool
  animationFrameId : Option Nat
  pending : List Nat
  observerDisconnected : Bool
  nextId : Nat
  framesRun : Nat
deriving DecidableEq, Repr

/-- pipeline-main.js:256-269 `animate()`: return immediately when
`!isCanvasVisible`; otherwise run the frame body (clear, draw
connections, update and draw every particle, draw nodes — abstracted to
the counted invocation `framesRun + 1`, which the environment `throws`
may make raise), then `animationFrameId = requestAnimationFrame(animate)`
— a line that is skipped when the body throws, leaving the previous
(already fired) id in `animationFrameId`. -/
def animate (throws : Nat → Bool) (s : CanvasState) : CanvasState :=
  if s.isCanvasVisible = false then s
  else
    let n := s.framesRun + 1
    if throws n then { s with framesRun := n }
    else
      { s with framesRun := n,
               animationFrameId := some s.nextId,
               pending := s.pending ++ [s.nextId],
               nextId := s.nextId + 1 }

/-- Events acting on the canvas effect: one delivered
IntersectionObserver record (pipeline-main.js:272-282), the firing of the
oldest still-pending `requestAnimationFrame` callback, and the cleanup
closure registered at pipeline-main.js:285-288 (run on destroy/unload). -/
inductive CanvasEvt
  | observer (isIntersecting : Bool)
  | frameFired
  | cleanup
deriving DecidableEq, Repr

/-- One step of the canvas effect.  The observer branch is
pipeline-main.js:272-282 (`isCanvasVisible = entry.isIntersecting;
if (isCanvasVisible && !animationFrameId) animate(); else if
(!isCanvasVisible && animationFrameId) { cancelAnimationFrame(...);
animationFrameId = null; }`); records are not delivered after
`disconnect()`.  The cleanup branch is pipeline-main.js:285-288
(`canvasObserver.disconnect(); if (animationFrameId)
cancelAnimationFrame(animationFrameId);` — note it does not null the
id). -/
def canvasStep (throws : Nat → Bool) (s : CanvasState) : CanvasEvt → CanvasState
  | .observer b =>
    if s.observerDisconnected then s
    else
      let s1 := { s with isCanvasVisible := b }
      if b then
        if s1.animationFrameId = none then animate throws s1 else s1
      else
        match s1.animationFrameId with
        | some id => { s1 with pending := s1.pending.erase id, animationFrameId := none }
        | none => s1
  | .frameFired =>
    match s.pending with
    | [] => s
    | _ :: rest => animate throws { s with pending := rest }
  | .cleanup =>
    let s1 := { s with observerDisconnected := true }
    match s1.animationFrameId with
    | some id => { s1 with pending := s1.pending.erase id }
    | none => s1

/-- pipeline-main.js:103-290: after registering the observer, the setup
code calls `animate()` unconditionally (line 290) with `isCanvasVisible`
initialised to `true`, before any visibility has been reported. -/
def initInteractivePipelineCanvasState (throws : Nat → Bool) : CanvasState :=
  animate throws
    { isCanvasVisible := true, animationFrameId := none, pending := [],
      observerDisconnected := false, nextId := 0, framesRun := 0 }

/-- pipeline-main.js:108-111: `initInteractivePipelineCanvas` returns
before creating any state when `Utils.prefersReducedMotion()` holds at
creation; otherwise the effect is set up and started. -/
def initInteractivePipelineCanvasM (prefersReducedMotion : Bool)
    (throws : Nat → Bool) : Option CanvasState :=
  if prefersReducedMotion then none
  else some (initInteractivePipelineCanvasState throws)

/-- The canvas effect after a sequence of events (creation with motion
permitted). -/
def canvasRun (throws : Nat → Bool) (evts : List CanvasEvt) : CanvasState :=
  evts.foldl (canvasStep throws) (initInteractivePipelineCanvasState throws)

/-- The canvas effect after creation under a given reduced-motion
preference and a sequence of events (`none` when no effect was created). -/
def canvasRunOpt (prefersReducedMotion : Bool) (throws : Nat → Bool)
    (evts : List CanvasEvt) : Option CanvasState :=
  (initInteractivePipelineCanvasM prefersReducedMotion throws).map
    (fun s => evts.foldl (canvasStep throws) s)

/-- A fault-free frame body. -/
def noThrow : Nat → Bool := fun _ => false

/-- A frame body that throws on its 5th invocation (spec Scenario D). -/
def throwsOn5 : Nat → Bool := fun n => n == 5

/- ===== the ungated duplicate loop (initInteractivePipeline) ===== -/

/-- Scheduling-relevant state of the duplicate canvas effect created by
`initInteractivePipeline` (pipeline-main.js:1459-1613): the script
variable `animationFrame` (line 1468), the browser frame queue, and the
count of executed frame bodies.  This code path registers no
IntersectionObserver and performs no reduced-motion check. -/
structure PipeState where
  animationFrame : Option Nat
  pending : List Nat
  nextId : Nat
  framesRun : Nat
deriving DecidableEq, Repr

/-- pipeline-main.js:1521-1550 `animate()`: run the frame body
(connections, particle update/draw) and reschedule unconditionally via
`animationFrame = requestAnimationFrame(animate)`. -/
def pipeAnimate (s : PipeState) : PipeState :=
  { animationFrame := some s.nextId,
    pending := s.pending ++ [s.nextId],
    nextId := s.nextId + 1,
    framesRun := s.framesRun + 1 }

/-- Events for the duplicate loop: a pending frame callback fires, or the
`beforeunload` handler (pipeline-main.js:1610-1612) runs
`cancelAnimationFrame(animationFrame)`. -/
inductive PipeEvt
  | frameFired
  | beforeunload
deriving DecidableEq, Repr

/-- One step of the duplicate loop. -/
def pipeStep (s : PipeState) : PipeEvt → PipeState
  | .frameFired =>
    match s.pending with
    | [] => s
    | _ :: rest => pipeAnimate { s with pending := rest }
  | .beforeunload =>
    match s.animationFrame with
    | some id => { s with pending := s.pending.erase id }
    | none => s

/-- pipeline-main.js:1459-1552: `initInteractivePipeline` sets up the
particles and calls `animate()` immediately (line 1552).  There is no
reduced-motion guard on this path. -/
def initInteractivePipelineState : PipeState :=
  pipeAnimate { animationFrame := none, pending := [], nextId := 0, framesRun := 0 }

/-- The duplicate loop after a sequence of events. -/
def pipeRun (evts : List PipeEvt) : PipeState :=
  evts.foldl pipeStep initInteractivePipelineState

/-- pipeline-main.js:1445-1453: the `DOMContentLoaded` handler invokes
`initInteractivePipeline()` unconditionally; the user's reduced-motion
preference (the argument) is not consulted anywhere on this path. -/
def domContentLoadedPipeline (_prefersReducedMotion : Bool) : PipeState :=
  initInteractivePipelineState

/- ===== particles of the pipeline-node canvas ===== -/

/-- One entry of the `nodes` array of `initInteractivePipelineCanvas`
(pipeline-main.js:115-121).  The JS `section` property is called
`sectionName` here because `section` is reserved in Lean. -/
structure PipelineNode where
  x : ℚ
  y : ℚ
  label : String
  color : String
  sectionName : String
deriving DecidableEq, Repr

/-- pipeline-main.js:116: the INPUT node. -/
def nodeInput : PipelineNode := ⟨15/100, 1/2, "INPUT", "#00ff88", "about"⟩

/-- pipeline-main.js:117: the PROCESS node. -/
def nodeProcess : PipelineNode := ⟨30/100, 1/2, "PROCESS", "#00d4ff", "skills"⟩

/-- pipeline-main.js:118: the ENRICH node. -/
def nodeEnrich : PipelineNode := ⟨50/100, 1/2, "ENRICH", "#fbbf24", "experience"⟩

/-- pipeline-main.js:119: the OUTPUT node. -/
def nodeOutput : PipelineNode := ⟨70/100, 1/2, "OUTPUT", "#ff0080", "projects"⟩

/-- pipeline-main.js:120: the MONITOR node. -/
def nodeMonitor : PipelineNode := ⟨85/100, 1/2, "MONITOR", "#a855f7", "contact"⟩

/-- pipeline-main.js:115-121: the fixed five-node pipeline array. -/
def nodes : List PipelineNode :=
  [nodeInput, nodeProcess, nodeEnrich, nodeOutput, nodeMonitor]

/-- pipeline-main.js:151-160: the fields of a `Particle` (geometry fields
that the update step reads or writes; `x`/`y` are derived in `draw` and
not stored). -/
structure Particle where
  startNode : PipelineNode
  endNode : PipelineNode
  progress : ℚ
  speed : ℚ
  size : ℚ
  opacity : ℚ
  color : String
deriving DecidableEq, Repr

/-- pipeline-main.js:152-160 `constructor(startNode, endNode)`: progress
starts at 0, opacity at 0.8, colour from the start node; `speed` and
`size` are randomised by the caller and passed in here. -/
def Particle.init (startNode endNode : PipelineNode) (speed size : ℚ) : Particle :=
  { startNode := startNode, endNode := endNode, progress := 0,
    speed := speed, size := size, opacity := 8/10, color := startNode.color }

/-- pipeline-main.js:162-177 `update()`: advance `progress` by `speed`;
on reaching 1, reset progress to 0 and move to the next edge
(`currentIndex = nodes.indexOf(this.endNode)`), wrapping from the last
node back to the first edge `nodes[0] → nodes[1]`. -/
def Particle.update (p : Particle) : Particle :=
  let progress := p.progress + p.speed
  if 1 ≤ progress then
    let currentIndex := nodes.indexOf p.endNode
    if currentIndex < nodes.length - 1 then
      { p with progress := 0, startNode := p.endNode,
               endNode := nodes.getD (currentIndex + 1) nodeInput,
               color := p.endNode.color }
    else
      { p with progress := 0, startNode := nodeInput, endNode := nodeProcess,
               color := nodeInput.color }
  else
    { p with progress := progress }

/-- The invariant claimed for particles: progress in `[0, 1)` and the
particle's edge joins two adjacent entries of the five-node array (the
pairs of `nodes.zip nodes.tail`). -/
def ParticleInv (p : Particle) : Prop :=
  0 ≤ p.progress ∧ p.progress < 1 ∧ (p.startNode, p.endNode) ∈ nodes.zip nodes.tail

/- ===================================================================
   Theorems
   =================================================================== -/

/-- Claim C7: the device-capability score is two-tier (the boolean
`isLowEndDevice`); a device reporting 2 logical cores is classified low
regardless of its memory hint, and the low-tier particle count (5) is
exactly one quarter of the normal desktop count (20). -/
theorem C7_low_tier_quarter_particles (deviceMemory : Option Nat) (isMobile : Bool) :
    isLowEndDevice (some 2) deviceMemory = true ∧
    particleCount true isMobile = 5 ∧
    particleCount false false = 20 ∧
    4 * particleCount true isMobile = particleCount false false := by
  refine ⟨?_, ?_, rfl, ?_⟩ <;> simp [isLowEndDevice, particleCount, jsOrNat]

/-- Claim C3 (code bug): with two registered cleanup actions of which the
first throws, `createCleanupRegistry().cleanup()` invokes only the first
action (the second never runs), lets the exception propagate to the
caller, and leaves the `cleanups` array uncleared — contradicting the
claim that every cleanup action runs exactly once with individual
failures swallowed.  (Independently, the page-level `cleanupRegistry`
array of pipeline-main.js:71 is pushed to at lines 148, 285 and 319 but
no code ever iterates or invokes it, so at page unload those actions run
zero times.) -/
theorem C3_cleanup_fault_propagates :
    cleanupRegistryCleanup [true, false] = (1, true, [true, false]) := by decide

/-- Claim C1 counterexample: immediately after creation — the empty event
trace, which is exactly what a target that is not intersecting produces
until the observer delivers its first (asynchronous) record — the handle
has a frame scheduled (it is running) and has even executed one frame
body, while it is neither destroyed nor disabled and the target is not
intersecting.  This falsifies the claimed if-and-only-if: `animate()` is
called unconditionally at pipeline-main.js:290. -/
theorem C1_counterexample :
    (canvasRun noThrow []).pending ≠ [] ∧
    (canvasRun noThrow []).observerDisconnected = false ∧
    (canvasRun noThrow []).framesRun = 1 := by decide

/-- Claim C2 counterexample: with the reduced-motion preference set at
creation time (argument `true`), the continuous particle loop created by
`initInteractivePipeline` on `DOMContentLoaded` has nonetheless already
executed its first frame body and scheduled the next frame — the effect
starts; this code path never consults the preference. -/
theorem C2_counterexample :
    (domContentLoadedPipeline true).framesRun = 1 ∧
    (domContentLoadedPipeline true).pending ≠ [] := by decide

/-- Claim C5 counterexample: with a frame body that throws on its 5th
invocation, after the 5th invocation the loop is indeed not rescheduled
(`pending = []`, `framesRun = 5`), but the handle is not moved to a
paused state — `animationFrameId` retains the stale id of the frame that
just fired — and a subsequent exit/re-entry of the viewport restarts the
loop, so a 6th per-frame invocation does occur, contrary to the claim. -/
theorem C5_counterexample :
    (canvasRun throwsOn5
        [CanvasEvt.frameFired, CanvasEvt.frameFired, CanvasEvt.frameFired,
         CanvasEvt.frameFired]).framesRun = 5 ∧
    (canvasRun throwsOn5
        [CanvasEvt.frameFired, CanvasEvt.frameFired, CanvasEvt.frameFired,
         CanvasEvt.frameFired]).pending = [] ∧
    (canvasRun throwsOn5
        [CanvasEvt.frameFired, CanvasEvt.frameFired, CanvasEvt.frameFired,
         CanvasEvt.frameFired, CanvasEvt.observer false, CanvasEvt.observer true]).framesRun
      = 6 := by decide

/-- Structural invariant of the canvas effect (any frame body): the frame
queue is empty, or holds exactly the id stored in `animationFrameId`
while the canvas is visible and the observer connected. -/
def CanvasInv (s : CanvasState) : Prop :=
  s.pending = [] ∨
    ∃ i, s.pending = [i] ∧ s.animationFrameId = some i ∧
      s.isCanvasVisible = true ∧ s.observerDisconnected = false

/-- Additional invariant when the frame body never throws:
`animationFrameId` mirrors the queue exactly while the observer is
connected, and a frame is pending precisely when the observer is
connected and the last report (initially `true` by default) was
intersecting. -/
def CanvasInvNT (s : CanvasState) : Prop :=
  CanvasInv s ∧
  (s.observerDisconnected = false → (s.pending = [] ↔ s.animationFrameId = none)) ∧
  (s.pending ≠ [] ↔ (s.observerDisconnected = false ∧ s.isCanvasVisible = true))

theorem canvasInv_animate (throws : Nat → Bool) (s : CanvasState)
    (hp : s.pending = []) (hd : s.observerDisconnected = false) :
    CanvasInv (animate throws s) := by
  unfold animate
  by_cases hv : s.isCanvasVisible = false
  · rw [if_pos hv]; exact Or.inl hp
  · rw [if_neg hv]
    by_cases ht : throws (s.framesRun + 1)
    · simp only [ht, if_pos]
      exact Or.inl hp
    · simp only [ht, Bool.false_eq_true, if_neg, not_false_iff]
      right
      refine ⟨s.nextId, by simp [hp], rfl, ?_, hd⟩
      revert hv; cases s.isCanvasVisible <;> simp

theorem canvasInv_step (throws : Nat → Bool) (s : CanvasState) (e : CanvasEvt)
    (h : CanvasInv s) : CanvasInv (canvasStep throws s e) := by
  cases e with
  | observer b =>
    by_cases hd : s.observerDisconnected
    · simp only [canvasStep, hd, if_pos]; exact h
    · have hdf : s.observerDisconnected = false := by
        revert hd; cases s.observerDisconnected <;> simp
      cases b with
      | true =>
        simp only [canvasStep, hdf, Bool.false_eq_true, if_neg, not_false_iff, if_pos]
        by_cases hid : s.animationFrameId = none
        · rw [if_pos (by simpa using hid)]
          have hp : s.pending = [] := by
            rcases h with h | ⟨i, hpi, hsome, _, _⟩
            · exact h
            · rw [hsome] at hid; cases hid
          exact canvasInv_animate throws _ (by simpa using hp) (by simp)
        · rw [if_neg (by simpa using hid)]
          rcases h with h | ⟨i, hpi, hsome, _, _⟩
          · exact Or.inl h
          · exact Or.inr ⟨i, hpi, hsome, rfl, rfl⟩
      | false =>
        simp only [canvasStep, hdf, Bool.false_eq_true, if_neg, not_false_iff]
        cases hid : s.animationFrameId with
        | none => exact Or.inl (by
            rcases h with h | ⟨i, _, hsome, _, _⟩
            · simpa using h
            · rw [hid] at hsome; cases hsome)
        | some i =>
          left
          rcases h with h | ⟨j, hpj, hsome, _, _⟩
          · simp [h]
          · rw [hid] at hsome
            injection hsome with hji
            simp [hpj, hji, List.erase_cons_head]
  | frameFired =>
    cases hp : s.pending with
    | nil => simpa [canvasStep, hp] using h
    | cons i rest =>
      rcases h with h | ⟨j, hpj, hsome, hvis, hdisc⟩
      · rw [hp] at h; cases h
      · rw [hp] at hpj
        injection hpj with hij hrest
        simp only [canvasStep, hp]
        exact canvasInv_animate throws _ (by simpa using hrest.symm) (by simpa using hdisc)
  | cleanup =>
    left
    simp only [canvasStep]
    cases hid : s.animationFrameId with
    | none =>
      rcases h with h | ⟨i, _, hsome, _, _⟩
      · simpa using h
      · rw [hid] at hsome; cases hsome
    | some i =>
      rcases h with h | ⟨j, hpj, hsome, _, _⟩
      · simp [h]
      · rw [hid] at hsome
        injection hsome with hji
        simp [hpj, hji, List.erase_cons_head]

theorem canvasInv_foldl (throws : Nat → Bool) :
    ∀ (evts : List CanvasEvt) (s : CanvasState), CanvasInv s →
      CanvasInv (evts.foldl (canvasStep throws) s)
  | [], _, h => h
  | e :: rest, s, h =>
    canvasInv_foldl throws rest (canvasStep throws s e) (canvasInv_step throws s e h)

theorem canvasInv_run (throws : Nat → Bool) (evts : List CanvasEvt) :
    CanvasInv (canvasRun throws evts) := by
  apply canvasInv_foldl
  exact canvasInv_animate throws _ rfl rfl

theorem canvasInvNT_animate (s : CanvasState) (hp : s.pending = [])
    (hd : s.observerDisconnected = false) (hv : s.isCanvasVisible = true) :
    CanvasInvNT (animate noThrow s) := by
  unfold animate noThrow
  rw [hv]
  simp only [Bool.true_eq_false, if_neg, not_false_iff, if_false, Bool.false_eq_true]
  refine ⟨Or.inr ⟨s.nextId, by simp [hp], rfl, rfl, hd⟩, ?_, ?_⟩
  · intro _
    simp [hp]
  · simp [hp, hd, hv]

theorem canvasInvNT_step (s : CanvasState) (e : CanvasEvt)
    (h : CanvasInvNT s) : CanvasInvNT (canvasStep noThrow s e) := by
  obtain ⟨hinv, hiff, hrun⟩ := h
  cases e with
  | observer b =>
    by_cases hd : s.observerDisconnected
    · simp only [canvasStep, hd, if_pos]; exact ⟨hinv, hiff, hrun⟩
    · have hdf : s.observerDisconnected = false := by
        revert hd; cases s.observerDisconnected <;> simp
      cases b with
      | true =>
        simp only [canvasStep, hdf, Bool.false_eq_true, if_neg, not_false_iff, if_pos]
        by_cases hid : s.animationFrameId = none
        · rw [if_pos (by simpa using hid)]
          have hp : s.pending = [] := (hiff hdf).mpr hid
          exact canvasInvNT_animate _ (by simpa using hp) (by simp) rfl
        · rw [if_neg (by simpa using hid)]
          have hpne : s.pending ≠ [] := fun hnil => hid ((hiff hdf).mp hnil)
          rcases hinv with h0 | ⟨i, hpi, hsome, _, _⟩
          · exact absurd h0 hpne
          · refine ⟨Or.inr ⟨i, hpi, hsome, rfl, rfl⟩, ?_, ?_⟩
            · intro _
              constructor
              · intro hnil; exact absurd hnil (by simp [hpi])
              · intro hn; rw [hn] at hsome; cases hsome
            · simp [hpi, hdf]
      | false =>
        simp only [canvasStep, hdf, Bool.false_eq_true, if_neg, not_false_iff]
        cases hid : s.animationFrameId with
        | none =>
          have hp : s.pending = [] := (hiff hdf).mpr hid
          refine ⟨Or.inl (by simpa using hp), ?_, ?_⟩
          · intro _; simp [hp, hid]
          · simp [hp]
        | some i =>
          have hpne : s.pending ≠ [] := by
            intro hnil
            have := (hiff hdf).mp hnil
            rw [hid] at this; cases this
          rcases hinv with h0 | ⟨j, hpj, hsome, _, _⟩
          · exact absurd h0 hpne
          · rw [hid] at hsome
            injection hsome with hji
            refine ⟨Or.inl (by simp [hpj, hji, List.erase_cons_head]), ?_, ?_⟩
            · intro _; simp [hpj, hji, List.erase_cons_head]
            · simp [hpj, hji, List.erase_cons_head]
  | frameFired =>
    cases hp : s.pending with
    | nil =>
      simp only [canvasStep, hp]
      exact ⟨hinv, hiff, hrun⟩
    | cons i rest =>
      rcases hinv with h0 | ⟨j, hpj, hsome, hvis, hdisc⟩
      · rw [hp] at h0; cases h0
      · rw [hp] at hpj
        injection hpj with hij hrest
        simp only [canvasStep, hp]
        exact canvasInvNT_animate _ (by simpa using hrest.symm) (by simpa using hdisc)
          (by simpa using hvis)
  | cleanup =>
    have hpend : (canvasStep noThrow s CanvasEvt.cleanup).pending = [] ∧
        (canvasStep noThrow s CanvasEvt.cleanup).observerDisconnected = true := by
      simp only [canvasStep]
      cases hid : s.animationFrameId with
      | none =>
        rcases hinv with h0 | ⟨i, _, hsome, _, _⟩
        · simp [h0]
        · rw [hid] at hsome; cases hsome
      | some i =>
        rcases hinv with h0 | ⟨j, hpj, hsome, _, _⟩
        · simp [h0]
        · rw [hid] at hsome
          injection hsome with hji
          simp [hpj, hji, List.erase_cons_head]
    refine ⟨Or.inl hpend.1, ?_, ?_⟩
    · intro hcontra
      rw [hpend.2] at hcontra; cases hcontra
    · simp [hpend.1, hpend.2]

theorem canvasInvNT_foldl :
    ∀ (evts : List CanvasEvt) (s : CanvasState), CanvasInvNT s →
      CanvasInvNT (evts.foldl (canvasStep noThrow) s)
  | [], _, h => h
  | e :: rest, s, h =>
    canvasInvNT_foldl rest (canvasStep noThrow s e) (canvasInvNT_step s e h)

theorem canvasInvNT_run (evts : List CanvasEvt) :
    CanvasInvNT (canvasRun noThrow evts) := by
  apply canvasInvNT_foldl
  exact canvasInvNT_animate _ rfl rfl rfl

/-- Claim C1, amended: once created with motion permitted, the handle is
running (a frame is scheduled) iff it has not been destroyed and the most
recent delivered visibility report was intersecting — where, before any
report has been delivered, the loop runs by default because `animate()`
is called unconditionally at creation (this default is what the
counterexample exhibits); and when reduced motion is preferred at
creation no handle is created at all.  Stated for a fault-free frame
body (`noThrow`); a throwing body additionally halts the loop (claim
C5). -/
theorem C1_running_iff_amended (throws : Nat → Bool) (evts : List CanvasEvt) :
    (((canvasRun noThrow evts).pending ≠ []) ↔
      ((canvasRun noThrow evts).observerDisconnected = false ∧
       (canvasRun noThrow evts).isCanvasVisible = true)) ∧
    initInteractivePipelineCanvasM true throws = none :=
  ⟨(canvasInvNT_run evts).2.2, rfl⟩

/-- Claim C6: in every reachable state of the canvas effect at most one
frame step is scheduled, and an observer record reporting the target
intersecting while a frame is already pending leaves the state unchanged
(no second concurrent loop is started). -/
theorem C6_at_most_one_frame (throws : Nat → Bool) (evts : List CanvasEvt) :
    (canvasRun throws evts).pending.length ≤ 1 ∧
    ((canvasRun throws evts).pending ≠ [] →
      canvasStep throws (canvasRun throws evts) (CanvasEvt.observer true) =
        canvasRun throws evts) := by
  rcases canvasInv_run throws evts with h0 | ⟨i, hpi, hsome, hvis, hdisc⟩
  · exact ⟨by simp [h0], fun hne => absurd h0 hne⟩
  · refine ⟨by simp [hpi], fun _ => ?_⟩
    generalize hgen : canvasRun throws evts = s at hpi hsome hvis hdisc ⊢
    cases s with
    | mk v id p d n f =>
      simp only at hpi hsome hvis hdisc
      subst hpi hsome hvis hdisc
      simp [canvasStep]

/-- Witness for C6 at the state right after creation: one frame pending
and a redundant intersecting report is a no-op. -/
theorem C6_witness :
    (canvasRun noThrow []).pending.length ≤ 1 ∧
    canvasStep noThrow (canvasRun noThrow []) (CanvasEvt.observer true) =
      canvasRun noThrow [] :=
  ⟨(C6_at_most_one_frame noThrow []).1,
   (C6_at_most_one_frame noThrow []).2 (by decide)⟩

theorem canvasStep_frameFired_empty (throws : Nat → Bool) (s : CanvasState)
    (hp : s.pending = []) : canvasStep throws s CanvasEvt.frameFired = s := by
  simp [canvasStep, hp]

theorem canvas_frames_noop (throws : Nat → Bool) :
    ∀ (k : Nat) (s : CanvasState), s.pending = [] →
      (List.replicate k CanvasEvt.frameFired).foldl (canvasStep throws) s = s
  | 0, _, _ => rfl
  | k + 1, s, hp => by
    rw [List.replicate_succ, List.foldl_cons, canvasStep_frameFired_empty throws s hp]
    exact canvas_frames_noop throws k s hp

theorem canvasRun_append (throws : Nat → Bool) (l1 l2 : List CanvasEvt) :
    canvasRun throws (l1 ++ l2) = l2.foldl (canvasStep throws) (canvasRun throws l1) := by
  unfold canvasRun
  rw [List.foldl_append]

/-- Claim C5, amended: when the frame body throws on its 5th invocation,
the reschedule line is skipped, so with no further visibility events no
6th invocation ever occurs and no frame remains scheduled — the loop
degrades to inert.  (The code does not catch or log the error itself and
does not clear the stale `animationFrameId`; as the counterexample shows,
an exit/re-entry visibility cycle restarts the loop.) -/
theorem C5_no_reschedule_after_throw (k : Nat) :
    (canvasRun throwsOn5 (List.replicate 4 CanvasEvt.frameFired ++
        List.replicate k CanvasEvt.frameFired)).framesRun = 5 ∧
    (canvasRun throwsOn5 (List.replicate 4 CanvasEvt.frameFired ++
        List.replicate k CanvasEvt.frameFired)).pending = [] := by
  rw [canvasRun_append]
  have h4 : canvasRun throwsOn5 (List.replicate 4 CanvasEvt.frameFired) =
      ⟨true, some 3, [], false, 4, 5⟩ := by decide
  rw [h4, canvas_frames_noop throwsOn5 k _ rfl]
  exact ⟨rfl, rfl⟩

theorem canvasStep_absorbed (throws : Nat → Bool) (s : CanvasState)
    (hd : s.observerDisconnected = true) (hp : s.pending = []) (e : CanvasEvt) :
    canvasStep throws s e = s := by
  cases e with
  | observer b => simp [canvasStep, hd]
  | frameFired => simp [canvasStep, hp]
  | cleanup =>
    cases s with
    | mk v id p d n f =>
      simp only at hd hp
      subst hd hp
      cases id <;> simp [canvasStep]

theorem canvas_foldl_absorbed (throws : Nat → Bool) :
    ∀ (evts : List CanvasEvt) (s : CanvasState),
      s.observerDisconnected = true → s.pending = [] →
      evts.foldl (canvasStep throws) s = s
  | [], _, _, _ => rfl
  | e :: rest, s, hd, hp => by
    rw [List.foldl_cons, canvasStep_absorbed throws s hd hp e]
    exact canvas_foldl_absorbed throws rest s hd hp

theorem canvas_cleanup_final (throws : Nat → Bool) (evts1 : List CanvasEvt) :
    (canvasRun throws (evts1 ++ [CanvasEvt.cleanup])).observerDisconnected = true ∧
    (canvasRun throws (evts1 ++ [CanvasEvt.cleanup])).pending = [] := by
  rw [canvasRun_append]
  rcases canvasInv_run throws evts1 with h0 | ⟨i, hpi, hsome, hvis, hdisc⟩
  · cases hid : (canvasRun throws evts1).animationFrameId <;>
      simp [canvasStep, h0, hid]
  · simp [canvasStep, hsome, hpi, List.erase_cons_head]

/-- Structural invariant of the duplicate loop: the frame queue is empty
or holds exactly the id stored in `animationFrame`. -/
def PipeInv (s : PipeState) : Prop :=
  s.pending = [] ∨ ∃ i, s.pending = [i] ∧ s.animationFrame = some i

theorem pipeInv_step (s : PipeState) (e : PipeEvt) (h : PipeInv s) :
    PipeInv (pipeStep s e) := by
  cases e with
  | frameFired =>
    cases hp : s.pending with
    | nil => simpa [pipeStep, hp] using h
    | cons i rest =>
      rcases h with h0 | ⟨j, hpj, _⟩
      · rw [hp] at h0; cases h0
      · rw [hp] at hpj
        injection hpj with hij hrest
        simp only [pipeStep, hp]
        exact Or.inr ⟨s.nextId, by simp [pipeAnimate, hrest.symm], rfl⟩
  | beforeunload =>
    cases hid : s.animationFrame with
    | none =>
      rcases h with h0 | ⟨i, _, hsome⟩
      · simpa [pipeStep, hid] using Or.inl h0
      · rw [hid] at hsome; cases hsome
    | some i =>
      left
      rcases h with h0 | ⟨j, hpj, hsome⟩
      · simp [pipeStep, hid, h0]
      · rw [hid] at hsome
        injection hsome with hji
        simp [pipeStep, hid, hpj, hji, List.erase_cons_head]

theorem pipeInv_foldl :
    ∀ (evts : List PipeEvt) (s : PipeState), PipeInv s →
      PipeInv (evts.foldl pipeStep s)
  | [], _, h => h
  | e :: rest, s, h => pipeInv_foldl rest (pipeStep s e) (pipeInv_step s e h)

theorem pipeInv_run (evts : List PipeEvt) : PipeInv (pipeRun evts) :=
  pipeInv_foldl evts _ (Or.inr ⟨0, rfl, rfl⟩)

theorem pipeStep_absorbed (s : PipeState) (hp : s.pending = []) (e : PipeEvt) :
    pipeStep s e = s := by
  cases e with
  | frameFired => simp [pipeStep, hp]
  | beforeunload =>
    cases s with
    | mk id p n f =>
      simp only at hp
      subst hp
      cases id <;> simp [pipeStep]

theorem pipe_foldl_absorbed :
    ∀ (evts : List PipeEvt) (s : PipeState), s.pending = [] →
      evts.foldl pipeStep s = s
  | [], _, _ => rfl
  | e :: rest, s, hp => by
    rw [List.foldl_cons, pipeStep_absorbed s hp e]
    exact pipe_foldl_absorbed rest s hp

theorem pipeRun_append (l1 l2 : List PipeEvt) :
    pipeRun (l1 ++ l2) = l2.foldl pipeStep (pipeRun l1) := by
  unfold pipeRun
  rw [List.foldl_append]

theorem pipe_unload_final (evts1 : List PipeEvt) :
    (pipeRun (evts1 ++ [PipeEvt.beforeunload])).pending = [] := by
  rw [pipeRun_append]
  rcases pipeInv_run evts1 with h0 | ⟨i, hpi, hsome⟩
  · cases hid : (pipeRun evts1).animationFrame <;> simp [pipeStep, h0, hid]
  · simp [pipeStep, hsome, hpi, List.erase_cons_head]

/-- Claim C8: destruction is synchronous and final.  For the observer-
gated canvas effect, the cleanup closure disconnects the observer and
cancels the pending frame, and afterwards no event whatsoever — any mix
of visibility reports, frame firings, or repeated cleanup — changes the
state: in particular no frame step and no cleanup action ever executes
again.  For the duplicate loop, after the `beforeunload` handler cancels
the pending frame, subsequent frame events change nothing. -/
theorem C8_no_activity_after_destroy (throws : Nat → Bool)
    (evts1 evts2 : List CanvasEvt) (pevts1 pevts2 : List PipeEvt) :
    canvasRun throws (evts1 ++ CanvasEvt.cleanup :: evts2) =
      canvasRun throws (evts1 ++ [CanvasEvt.cleanup]) ∧
    pipeRun (pevts1 ++ PipeEvt.beforeunload :: pevts2) =
      pipeRun (pevts1 ++ [PipeEvt.beforeunload]) := by
  constructor
  · have hkey := canvas_cleanup_final throws evts1
    have hsplit : evts1 ++ CanvasEvt.cleanup :: evts2 =
        (evts1 ++ [CanvasEvt.cleanup]) ++ evts2 := by simp
    rw [hsplit, canvasRun_append,
      canvas_foldl_absorbed throws evts2 _ hkey.1 hkey.2]
  · have hkey := pipe_unload_final pevts1
    have hsplit : pevts1 ++ PipeEvt.beforeunload :: pevts2 =
        (pevts1 ++ [PipeEvt.beforeunload]) ++ pevts2 := by simp
    rw [hsplit, pipeRun_append, pipe_foldl_absorbed pevts2 _ hkey]

/-- Claim C2, amended: when reduced motion is preferred at creation, the
observer-gated canvas effect never starts — `initInteractivePipelineCanvas`
returns before creating any state, so no event sequence ever produces a
running handle — but the duplicate continuous loop created by
`initInteractivePipeline` on `DOMContentLoaded` starts unconditionally,
ignoring the preference (it has already run a frame and scheduled the
next at creation). -/
theorem C2_reduced_motion_amended (throws : Nat → Bool) (evts : List CanvasEvt) :
    canvasRunOpt true throws evts = none ∧
    (domContentLoadedPipeline true).framesRun = 1 ∧
    (domContentLoadedPipeline true).pending = [0] :=
  ⟨rfl, rfl, rfl⟩

theorem radar_foldl_disconnected :
    ∀ (evts : List Bool) (s : RadarState), s.disconnected = true →
      evts.foldl radarObserverStep s = s
  | [], _, _ => rfl
  | e :: rest, s, h => by
    rw [List.foldl_cons]
    have hstep : radarObserverStep s e = s := by simp [radarObserverStep, h]
    rw [hstep]
    exact radar_foldl_disconnected rest s h

theorem radar_foldl_fires :
    ∀ (evts : List Bool) (s : RadarState), s.disconnected = false →
      (evts.foldl radarObserverStep s).fires =
        s.fires + (if true ∈ evts then 1 else 0)
  | [], _, _ => by simp
  | e :: rest, s, h => by
    cases e with
    | false =>
      rw [List.foldl_cons]
      have hstep : radarObserverStep s false = s := by simp [radarObserverStep, h]
      rw [hstep, radar_foldl_fires rest s h]
      simp
    | true =>
      rw [List.foldl_cons]
      have hstep : radarObserverStep s true = ⟨true, s.fires + 1⟩ := by
        simp [radarObserverStep, h]
      rw [hstep, radar_foldl_disconnected rest _ rfl]
      simp

theorem metric_foldl_animated (sectionExists : Bool) :
    ∀ (evts : List Bool) (s : MetricState), s.animated = true →
      evts.foldl (checkMetrics sectionExists) s = s
  | [], _, _ => rfl
  | e :: rest, s, h => by
    rw [List.foldl_cons]
    have hstep : checkMetrics sectionExists s e = s := by
      simp [checkMetrics, h]
    rw [hstep]
    exact metric_foldl_animated sectionExists rest s h

theorem metric_foldl_fires :
    ∀ (evts : List Bool) (s : MetricState), s.animated = false →
      (evts.foldl (checkMetrics true) s).fires =
        s.fires + (if true ∈ evts then 1 else 0)
  | [], _, _ => by simp
  | e :: rest, s, h => by
    cases e with
    | false =>
      rw [List.foldl_cons]
      have hstep : checkMetrics true s false = s := by simp [checkMetrics, h]
      rw [hstep, metric_foldl_fires rest s h]
      simp
    | true =>
      rw [List.foldl_cons]
      have hstep : checkMetrics true s true = ⟨true, s.fires + 1⟩ := by
        simp [checkMetrics, h]
      rw [hstep, metric_foldl_animated true rest _ rfl]
      simp

theorem metric_foldl_no_section :
    ∀ (evts : List Bool) (s : MetricState),
      evts.foldl (checkMetrics false) s = s
  | [], _ => rfl
  | e :: rest, s => by
    rw [List.foldl_cons]
    have hstep : checkMetrics false s e = s := by simp [checkMetrics]
    rw [hstep]
    exact metric_foldl_no_section rest s

theorem checkImpact_eq_checkMetrics : checkImpact = checkMetrics := rfl

/-- Claim C4: each one-shot effect — the skill radar chart reveal, the
metric counters, the impact counters — fires at most once over the whole
life of its handle, and fires exactly once as soon as some visibility
check sees the target on screen (for the counters, provided their target
section exists in the document), no matter how many times the target
enters and leaves the viewport afterwards. -/
theorem C4_one_shot_exactly_once (evR evM evI : List Bool) (seM seI : Bool) :
    ((initSkillRadarChartRun evR).fires ≤ 1) ∧
    (true ∈ evR → (initSkillRadarChartRun evR).fires = 1) ∧
    ((initMetricCountersRun seM evM).fires ≤ 1) ∧
    (seM = true → true ∈ evM → (initMetricCountersRun seM evM).fires = 1) ∧
    ((initImpactCountersRun seI evI).fires ≤ 1) ∧
    (seI = true → true ∈ evI → (initImpactCountersRun seI evI).fires = 1) := by
  have hR := radar_foldl_fires evR ⟨false, 0⟩ rfl
  have hMgen : ∀ (se : Bool) (ev : List Bool),
      (initMetricCountersRun se ev).fires ≤ 1 ∧
      (se = true → true ∈ ev → (initMetricCountersRun se ev).fires = 1) := by
    intro se ev
    cases se with
    | false =>
      unfold initMetricCountersRun
      rw [metric_foldl_no_section]
      exact ⟨by simp, fun hcontra => by cases hcontra⟩
    | true =>
      unfold initMetricCountersRun
      have h := metric_foldl_fires ev ⟨false, 0⟩ rfl
      rw [h]
      constructor
      · split <;> simp
      · intro _ hmem
        simp [hmem]
  have hIgen : ∀ (se : Bool) (ev : List Bool),
      (initImpactCountersRun se ev).fires ≤ 1 ∧
      (se = true → true ∈ ev → (initImpactCountersRun se ev).fires = 1) := by
    intro se ev
    have heq : initImpactCountersRun se ev = initMetricCountersRun se ev := by
      unfold initImpactCountersRun initMetricCountersRun
      rw [checkImpact_eq_checkMetrics]
    rw [heq]
    exact hMgen se ev
  refine ⟨?_, ?_, (hMgen seM evM).1, (hMgen seM evM).2, (hIgen seI evI).1, (hIgen seI evI).2⟩
  · unfold initSkillRadarChartRun
    rw [hR]
    split <;> simp
  · intro hmem
    unfold initSkillRadarChartRun
    rw [hR]
    simp [hmem]

/-- Witness for C4 on concrete enter/exit histories: each one-shot fires
exactly once. -/
theorem C4_witness :
    (initSkillRadarChartRun [false, true, true, false, true]).fires = 1 ∧
    (initMetricCountersRun true [false, true, true]).fires = 1 ∧
    (initImpactCountersRun true [true, false, true]).fires = 1 := by
  obtain ⟨-, h1, -, h2, -, h3⟩ :=
    C4_one_shot_exactly_once [false, true, true, false, true]
      [false, true, true] [true, false, true] true true
  exact ⟨h1 (by decide), h2 rfl (by decide), h3 rfl (by decide)⟩

theorem counterDisplays_spec (increment target : ℚ) (_hinc : 0 < increment) :
    ∀ (fuel : Nat) (current : ℚ),
      target ≤ current + fuel * increment → 1 ≤ fuel →
      ∃ pre : List ℚ,
        counterDisplays fuel current increment target = pre ++ [target] ∧
        ∀ x ∈ pre, x < target := by
  intro fuel
  induction fuel with
  | zero => intro current _ hfuel; cases hfuel
  | succ n ih =>
    intro current hreach _
    by_cases hc : target ≤ current + increment
    · refine ⟨[], ?_, by simp⟩
      simp [counterDisplays, hc]
    · have hlt : current + increment < target := lt_of_not_ge hc
      have hn1 : 1 ≤ n := by
        rcases Nat.eq_zero_or_pos n with rfl | hn
        · exfalso
          apply hc
          have : ((0 : Nat) + 1 : ℚ) * increment = increment := by push_cast; ring
          calc target ≤ current + ((0 : Nat) + 1 : ℚ) * increment := by exact_mod_cast hreach
            _ = current + increment := by rw [this]
        · exact hn
      have hreach2 : target ≤ (current + increment) + n * increment := by
        have hcast : ((n + 1 : Nat) : ℚ) * increment = n * increment + increment := by
          push_cast; ring
        calc target ≤ current + ((n + 1 : Nat) : ℚ) * increment := hreach
          _ = (current + increment) + n * increment := by rw [hcast]; ring
      obtain ⟨pre, heq, hpre⟩ := ih (current + increment) hreach2 hn1
      refine ⟨(⌊current + increment⌋ : ℚ) :: pre, ?_, ?_⟩
      · simp only [counterDisplays, if_neg hc]
        rw [heq, List.cons_append]
      · intro x hx
        rcases List.mem_cons.mp hx with rfl | hx
        · calc (⌊current + increment⌋ : ℚ) ≤ current + increment := Int.floor_le _
            _ < target := hlt
        · exact hpre x hx

/-- Claim C9: for every positive integer target (and positive duration),
`animateCounter` run with the tick budget `ceil(duration / 16)` reaches
its terminal branch: the sequence of displayed values ends with exactly
the target, and every intermediate display — the floor of a running
value strictly below the target — is strictly less than the target. -/
theorem C9_counter_reaches_target (target : ℤ) (duration : ℚ)
    (htarget : 0 < target) (hduration : 0 < duration) :
    ∃ pre : List ℚ,
      animateCounter (target : ℚ) duration (⌈duration / 16⌉.toNat) =
        pre ++ [(target : ℚ)] ∧
      ∀ x ∈ pre, x < (target : ℚ) := by
  have htq : (0 : ℚ) < (target : ℚ) := by exact_mod_cast htarget
  have hd16 : (0 : ℚ) < duration / 16 := by positivity
  have hinc : (0 : ℚ) < (target : ℚ) / (duration / 16) := by positivity
  have hceil0 : (0 : ℤ) < ⌈duration / 16⌉ := Int.ceil_pos.mpr hd16
  have hfuel1 : 1 ≤ ⌈duration / 16⌉.toNat := by omega
  have hcastceil : ((⌈duration / 16⌉.toNat : Nat) : ℚ) = (⌈duration / 16⌉ : ℚ) := by
    have : ((⌈duration / 16⌉.toNat : Nat) : ℤ) = ⌈duration / 16⌉ :=
      Int.toNat_of_nonneg (le_of_lt hceil0)
    exact_mod_cast congrArg (fun z : ℤ => (z : ℚ)) this
  have hreach : (target : ℚ) ≤ 0 + (⌈duration / 16⌉.toNat : Nat) *
      ((target : ℚ) / (duration / 16)) := by
    rw [zero_add, hcastceil]
    have hle : duration / 16 ≤ (⌈duration / 16⌉ : ℚ) := Int.le_ceil _
    have hmul : (duration / 16) * ((target : ℚ) / (duration / 16)) ≤
        (⌈duration / 16⌉ : ℚ) * ((target : ℚ) / (duration / 16)) :=
      mul_le_mul_of_nonneg_right hle (le_of_lt hinc)
    have hid : (duration / 16) * ((target : ℚ) / (duration / 16)) = (target : ℚ) := by
      field_simp
      ring
    calc (target : ℚ) = (duration / 16) * ((target : ℚ) / (duration / 16)) := hid.symm
      _ ≤ (⌈duration / 16⌉ : ℚ) * ((target : ℚ) / (duration / 16)) := hmul
  exact counterDisplays_spec _ _ hinc _ 0 hreach hfuel1

/-- Witness for C9 at target 7 and duration 16 ms (a single tick). -/
theorem C9_witness :
    ∃ pre : List ℚ,
      animateCounter ((7 : ℤ) : ℚ) 16 (⌈(16 : ℚ) / 16⌉.toNat) =
        pre ++ [((7 : ℤ) : ℚ)] ∧
      ∀ x ∈ pre, x < ((7 : ℤ) : ℚ) :=
  C9_counter_reaches_target 7 16 (by decide) (by norm_num)

/-- Claim C10: a pipeline-canvas particle whose speed lies in the range
produced by the constructor (`0.002 + Math.random() * 0.003`, hence
strictly between 0 and 1) preserves, across one `update()` step, the
invariant that its progress lies in `[0, 1)` and that its end node is the
entry immediately following its start node in the fixed five-node array —
travelling only along adjacent edges and wrapping from the last edge back
to the first. -/
theorem pipelineNode_ne_of_label {a b : PipelineNode} (h : a.label ≠ b.label) :
    a ≠ b :=
  fun he => h (congrArg PipelineNode.label he)

theorem indexOf_nodeProcess : nodes.indexOf nodeProcess = 1 := by
  rw [show nodes = [nodeInput, nodeProcess, nodeEnrich, nodeOutput, nodeMonitor] from rfl,
    List.indexOf_cons_ne _ (pipelineNode_ne_of_label (by decide)),
    List.indexOf_cons_self]

theorem indexOf_nodeEnrich : nodes.indexOf nodeEnrich = 2 := by
  rw [show nodes = [nodeInput, nodeProcess, nodeEnrich, nodeOutput, nodeMonitor] from rfl,
    List.indexOf_cons_ne _ (pipelineNode_ne_of_label (by decide)),
    List.indexOf_cons_ne _ (pipelineNode_ne_of_label (by decide)),
    List.indexOf_cons_self]

theorem indexOf_nodeOutput : nodes.indexOf nodeOutput = 3 := by
  rw [show nodes = [nodeInput, nodeProcess, nodeEnrich, nodeOutput, nodeMonitor] from rfl,
    List.indexOf_cons_ne _ (pipelineNode_ne_of_label (by decide)),
    List.indexOf_cons_ne _ (pipelineNode_ne_of_label (by decide)),
    List.indexOf_cons_ne _ (pipelineNode_ne_of_label (by decide)),
    List.indexOf_cons_self]

theorem indexOf_nodeMonitor : nodes.indexOf nodeMonitor = 4 := by
  rw [show nodes = [nodeInput, nodeProcess, nodeEnrich, nodeOutput, nodeMonitor] from rfl,
    List.indexOf_cons_ne _ (pipelineNode_ne_of_label (by decide)),
    List.indexOf_cons_ne _ (pipelineNode_ne_of_label (by decide)),
    List.indexOf_cons_ne _ (pipelineNode_ne_of_label (by decide)),
    List.indexOf_cons_ne _ (pipelineNode_ne_of_label (by decide)),
    List.indexOf_cons_self]

/-- Claim C10: a pipeline-canvas particle whose speed lies in the range
produced by the constructor (`0.002 + Math.random() * 0.003`, hence
strictly between 0 and 1) preserves, across one `update()` step, the
invariant that its progress lies in `[0, 1)` and that its end node is the
entry immediately following its start node in the fixed five-node array —
travelling only along adjacent edges and wrapping from the last edge back
to the first. -/
theorem C10_particle_update_invariant (p : Particle)
    (hspeed0 : 0 < p.speed) (_hspeed1 : p.speed < 1) (h : ParticleInv p) :
    ParticleInv p.update := by
  obtain ⟨hp0, hp1, hadj⟩ := h
  have hadj2 : p.startNode = nodeInput ∧ p.endNode = nodeProcess ∨
      p.startNode = nodeProcess ∧ p.endNode = nodeEnrich ∨
      p.startNode = nodeEnrich ∧ p.endNode = nodeOutput ∨
      p.startNode = nodeOutput ∧ p.endNode = nodeMonitor := by
    simpa [nodes] using hadj
  unfold Particle.update
  by_cases hge : 1 ≤ p.progress + p.speed
  · rw [if_pos hge]
    rcases hadj2 with ⟨hs, he⟩ | ⟨hs, he⟩ | ⟨hs, he⟩ | ⟨hs, he⟩ <;> rw [he]
    · rw [if_pos (show nodes.indexOf nodeProcess < nodes.length - 1 by
        rw [indexOf_nodeProcess]; norm_num [nodes])]
      exact ⟨by norm_num, by norm_num, by rw [indexOf_nodeProcess]; simp [nodes]⟩
    · rw [if_pos (show nodes.indexOf nodeEnrich < nodes.length - 1 by
        rw [indexOf_nodeEnrich]; norm_num [nodes])]
      exact ⟨by norm_num, by norm_num, by rw [indexOf_nodeEnrich]; simp [nodes]⟩
    · rw [if_pos (show nodes.indexOf nodeOutput < nodes.length - 1 by
        rw [indexOf_nodeOutput]; norm_num [nodes])]
      exact ⟨by norm_num, by norm_num, by rw [indexOf_nodeOutput]; simp [nodes]⟩
    · rw [if_neg (show ¬ nodes.indexOf nodeMonitor < nodes.length - 1 by
        rw [indexOf_nodeMonitor]; norm_num [nodes])]
      exact ⟨by norm_num, by norm_num, by simp [nodes]⟩
  · rw [if_neg hge]
    exact ⟨add_nonneg hp0 (le_of_lt hspeed0), lt_of_not_ge hge, hadj⟩

/-- Witness for C10: one update of a freshly constructed particle on the
INPUT→PROCESS edge with speed 0.003. -/
theorem C10_witness :
    ParticleInv (Particle.update (Particle.init nodeInput nodeProcess (3/1000) 2)) :=
  C10_particle_update_invariant (Particle.init nodeInput nodeProcess (3/1000) 2)
    (by norm_num [Particle.init]) (by norm_num [Particle.init])
    ⟨by norm_num [Particle.init], by norm_num [Particle.init],
     by simp [Particle.init, nodes]⟩
